import Mathlib

/-!
Verification development for the report service.

The aggregation core (`usecases/services/report.go`) is embedded shallowly:

* Timestamps are rational numbers of seconds since the Unix epoch.  A Go
  `time.Time` carries an integer second count plus an integer nanosecond
  count, so every Go timestamp is such a rational; `time.Time.Unix()` is the
  floor to whole seconds, and `time.Unix(s, 0)` is the cast of that integer
  back to a timestamp.  `Duration.Hours()` divides the second difference by
  3600.  Float64 arithmetic on hour values is modelled by exact rational
  arithmetic.
* A Go `map[string][]dto.EsStatus` is modelled as an association list whose
  order records the (unspecified, per-run) iteration order of the map;
  indexing a missing key yields the empty list, as in Go.
* `entities.ContainerStatus` is a string type with constants `"ON"`/`"OFF"`,
  compared by string equality, exactly as the Go code does.
-/

namespace VcsReport

/-- Constant `entities.ContainerOn` from `entities/container.go`. -/
def ContainerOn : String := "ON"

/-- Constant `entities.ContainerOff` from `entities/container.go`. -/
def ContainerOff : String := "OFF"

/-- Record `dto.EsStatus` from `dto/elasticsearch.go` (the fields the aggregation
reads; `containerId` and the unused `counter` field are carried by the key /
dropped).  `uptime` is the int64 `Uptime` in seconds, `lastUpdated` the
timestamp `LastUpdated` in rational seconds since the epoch. -/
structure EsStatus where
  containerId : String
  status : String
  uptime : Int
  lastUpdated : ℚ
deriving DecidableEq

/-- A `map[string][]dto.EsStatus` together with one iteration order. -/
abbrev StatusIndex := List (String × List EsStatus)

/-- Go map indexing `m[k]`: the entry for `k`, or the zero value `[]`
when the key is absent. -/
def mapGet : StatusIndex → String → List EsStatus
  | [], _ => []
  | p :: rest, k => if p.1 = k then p.2 else mapGet rest k

/-- One iteration of the inner record walk of
`reportService.CalculateReportStatistic` (report.go lines 113-121).
State `(totalUptime, previousTime, isOnline)`:

* `status.Status == entities.ContainerOn`:
  `totalUptime += min(status.LastUpdated.Sub(startTime).Hours(),
  float64(status.Uptime)/3600)`; `isOnline = 1`.
* otherwise: `previousTime = time.Unix(max(previousTime.Unix(),
  status.LastUpdated.Unix()), 0)` — note the truncation to whole seconds —
  and `isOnline = 0`. -/
def walkStep (startTime : ℚ) (st : ℚ × ℚ × Int) (r : EsStatus) : ℚ × ℚ × Int :=
  if r.status = ContainerOn then
    (st.1 + min ((r.lastUpdated - startTime) / 3600) ((r.uptime : ℚ) / 3600),
      st.2.1, 1)
  else
    (st.1, ((max ⌊st.2.1⌋ ⌊r.lastUpdated⌋ : ℤ) : ℚ), 0)

/-- One iteration of the outer per-container loop of
`reportService.CalculateReportStatistic` (report.go lines 110-136).
Accumulator `(onCount, offCount, totalUptime, isOnline)`.  `previousTime`
is re-initialised to `startTime` for each container, but — exactly as in
the source, where `isOnline := 0` is declared before the outer loop —
the `isOnline` flag is threaded across containers. -/
def processContainer (overlapStatusList : StatusIndex) (startTime endTime : ℚ)
    (acc : Int × Int × ℚ × Int) (c : String × List EsStatus) :
    Int × Int × ℚ × Int :=
  let w := c.2.foldl (walkStep startTime) (acc.2.2.1, startTime, acc.2.2.2)
  match mapGet overlapStatusList c.1 with
  | [] => (acc.1 + w.2.2, acc.2.1 + (1 - w.2.2), w.1, w.2.2)
  | b :: _ =>
    if b.status = ContainerOn then
      (acc.1 + 1, acc.2.1,
        w.1 + min ((endTime - w.2.1) / 3600) ((b.uptime : ℚ) / 3600), w.2.2)
    else
      (acc.1, acc.2.1 + 1, w.1, w.2.2)

/-- Function `reportService.CalculateReportStatistic` (report.go lines 105-138):
returns `(onCount, offCount, totalUptime)`. -/
def CalculateReportStatistic (statusList overlapStatusList : StatusIndex)
    (startTime endTime : ℚ) : Int × Int × ℚ :=
  let r := statusList.foldl (processContainer overlapStatusList startTime endTime)
    (0, 0, 0, 0)
  (r.1, r.2.1, r.2.2.1)

/-! ## Worker report cycle (`usecases/workers/report.go`)

`reportkWorker.report` runs two store queries and, when both succeed,
aggregates and hands the result to the sink (`SendEmail`).  The two
`GetEsStatus` calls are modelled by their results; the sink invocation is
the `Option Report` value (`none` = the sink was not invoked, the cycle
was skipped). -/

/-- The tuple handed to `SendEmail` in `reportkWorker.report`:
`(onCount+offCount, onCount, offCount, totalUptime, startTime, endTime)`. -/
structure Report where
  totalCount : Int
  onCount : Int
  offCount : Int
  totalUptime : ℚ
  startTime : ℚ
  endTime : ℚ
deriving DecidableEq

/-- The outcomes of the two `GetEsStatus` calls of one tick: the window
query and the boundary probe. -/
structure CycleInput where
  winRes : Except String StatusIndex
  boundRes : Except String StatusIndex

/-- Function `reportkWorker.report` (workers/report.go lines 74-97): if either query
returns an error the function logs and returns without invoking the sink;
otherwise it aggregates and delivers the report. -/
def reportCycle (startTime endTime : ℚ) (inp : CycleInput) : Option Report :=
  match inp.winRes with
  | .error _ => none
  | .ok statusList =>
    match inp.boundRes with
    | .error _ => none
    | .ok overlap =>
      let r := CalculateReportStatistic statusList overlap startTime endTime
      some ⟨r.1 + r.2.1, r.1, r.2.1, r.2.2, startTime, endTime⟩

/-- One event observed by the `select` in `reportkWorker.run`: either the
cancellation channel fires, or the ticker fires carrying that tick's
window bounds and query outcomes. -/
inductive LoopEv where
  | ctxDone : LoopEv
  | tick (startTime endTime : ℚ) (inp : CycleInput) : LoopEv

/-- Whether a select-event sequence contains a cancellation event. -/
def hasDone : List LoopEv → Bool
  | [] => false
  | LoopEv.ctxDone :: _ => true
  | LoopEv.tick _ _ _ :: rest => hasDone rest

/-- Function `reportkWorker.run` (workers/report.go lines 57-72) over a finite
sequence of select events: on `ctxDone` the loop returns, on a ticker event
it runs `report` and continues unconditionally.  The result lists, per
processed tick, the sink invocation (`none` = cycle skipped). -/
def runLoop : List LoopEv → List (Option Report)
  | [] => []
  | LoopEv.ctxDone :: _ => []
  | LoopEv.tick s e inp :: rest => reportCycle s e inp :: runLoop rest

/-! ## Registry lookup (`interfaces/redis_client.go`) and query glue -/

/-- Outcome of `redis.Client.Get(ctx, key).Result()`: the sentinel
`redis.Nil` (key absent), a stored string value, or a transport error. -/
inductive RedisReply where
  | nilReply : RedisReply
  | value (s : String) : RedisReply
  | failure (e : String) : RedisReply

/-- Record `entities.ContainerWithStatus` from `entities/container.go`. -/
structure ContainerWithStatus where
  containerId : String
  status : String
deriving DecidableEq

/-- Method `RedisClient.Get` (interfaces/redis_client.go lines 23-36): on
`redis.Nil` it returns the empty list and no error; on a transport error it
propagates the error; otherwise it unmarshals the JSON value (the JSON
decoder is abstracted as the `unmarshal` parameter, `none` = decode
failure). -/
def redisGet (store : String → RedisReply)
    (unmarshal : String → Option (List ContainerWithStatus)) (key : String) :
    Except String (List ContainerWithStatus) :=
  match store key with
  | .nilReply => .ok []
  | .failure e => .error e
  | .value v =>
    match unmarshal v with
    | some result => .ok result
    | none => .error "unmarshal failure"

/-- The result-map construction of `reportService.GetEsStatus`
(report.go lines 210-218): the i-th multi-search response is keyed by the
i-th container id, and a key is created only when the response has at
least one hit — a container with zero hits is absent from the map. -/
def buildResults (ids : List String) (responses : List (List EsStatus)) :
    StatusIndex :=
  (ids.zip responses).filter (fun p => !p.2.isEmpty)

/-- Function `reportService.GetEsStatus` (report.go lines 141-221), with the
elasticsearch transport and response parsing abstracted: `esResult` is the
outcome of the msearch round-trip, as the per-sub-query hit lists.  The
registry lookup failing aborts with the error (the worker then skips the
cycle); otherwise the result map is built from the responses. -/
def GetEsStatus (store : String → RedisReply)
    (unmarshal : String → Option (List ContainerWithStatus))
    (esResult : Except String (List (List EsStatus))) :
    Except String StatusIndex :=
  match redisGet store unmarshal "containers" with
  | .error e => .error e
  | .ok ids =>
    match esResult with
    | .error e => .error e
    | .ok responses => .ok (buildResults (ids.map (fun c => c.containerId)) responses)

/-! ## Scheduler start/stop state machine (`usecases/workers/report.go`)

`Start(numWorkers)` performs `wg.Add(numWorkers)` and launches ONE
goroutine running `run`, whose single deferred `wg.Done()` decrements the
counter once; `Stop` performs `cancel()` then `wg.Wait()`, which returns
when the counter reaches zero.  The interleaving of the `run` goroutine and
the caller of `Stop` is modelled as a small-step transition system. -/

structure SchedState where
  /-- The `sync.WaitGroup` counter. -/
  wgCount : Int
  /-- Whether `ctx.Done()` has been closed by `cancel()`. -/
  cancelled : Bool
  /-- The `run` goroutine has been scheduled and entered its loop. -/
  workerStarted : Bool
  /-- Whether `run` has returned (its deferred `wg.Done()` has executed). -/
  workerExited : Bool
  /-- Whether `Stop()` has executed `cancel()` and is in `wg.Wait()`. -/
  stopCalled : Bool
  /-- Whether `wg.Wait()` has returned, i.e. `Stop()` has returned. -/
  stopReturned : Bool
  /-- Number of sink deliveries performed by ticker iterations. -/
  reports : Nat
deriving DecidableEq

/-- State immediately after `Start(numWorkers)`: `wg.Add(numWorkers)` has
run and the `run` goroutine is spawned but not necessarily scheduled. -/
def startState (numWorkers : Int) : SchedState :=
  { wgCount := numWorkers, cancelled := false, workerStarted := false,
    workerExited := false, stopCalled := false, stopReturned := false,
    reports := 0 }

/-- Interleaved small steps of the `run` goroutine and of `Stop()`.  After
cancellation the `select` may still take the ticker branch when both
channels are ready, so `tickFire` is not guarded on `cancelled`. -/
inductive SchedStep : SchedState → SchedState → Prop where
  | schedule (s : SchedState) :
      s.workerStarted = false →
      SchedStep s { s with workerStarted := true }
  | tickFire (s : SchedState) :
      s.workerStarted = true → s.workerExited = false →
      SchedStep s { s with reports := s.reports + 1 }
  | exitLoop (s : SchedState) :
      s.workerStarted = true → s.workerExited = false → s.cancelled = true →
      SchedStep s { s with workerExited := true, wgCount := s.wgCount - 1 }
  | stopCancel (s : SchedState) :
      s.stopCalled = false →
      SchedStep s { s with stopCalled := true, cancelled := true }
  | stopReturn (s : SchedState) :
      s.stopCalled = true → s.stopReturned = false → s.wgCount = 0 →
      SchedStep s { s with stopReturned := true }

/-- States reachable from `startState numWorkers`. -/
inductive SchedReach (numWorkers : Int) : SchedState → Prop where
  | init : SchedReach numWorkers (startState numWorkers)
  | step {s t : SchedState} : SchedReach numWorkers s → SchedStep s t →
      SchedReach numWorkers t

/-! ## Input well-formedness predicates

These formalise the preconditions named by the specification for
aggregation inputs (§3, §7): records per entity ordered ascending by
`observedAt`, window-record timestamps inside `[start, end)`, and
non-negative `elapsedSeconds`. -/

/-- Records of one entity are ordered ascending by `lastUpdated`. -/
def RecordsSortedAsc (rs : List EsStatus) : Prop :=
  rs.Chain' (fun a b => a.lastUpdated ≤ b.lastUpdated)

/-- Every entity's record list is ordered ascending. -/
def InputSortedAsc (l : StatusIndex) : Prop :=
  ∀ p ∈ l, RecordsSortedAsc p.2

/-- Every window record's timestamp lies in `[startTime, endTime)`. -/
def InputInWindow (startTime endTime : ℚ) (l : StatusIndex) : Prop :=
  ∀ p ∈ l, ∀ r ∈ p.2, startTime ≤ r.lastUpdated ∧ r.lastUpdated < endTime

/-- Every window record's `elapsedSeconds` is non-negative. -/
def InputUptimeNonneg (l : StatusIndex) : Prop :=
  ∀ p ∈ l, ∀ r ∈ p.2, 0 ≤ r.uptime

/-- Number of entities in an aggregation input. -/
def entityCount (l : StatusIndex) : ℕ := l.length

/-- Total number of window records in an aggregation input. -/
def recordCount (l : StatusIndex) : ℕ := (l.map (fun p => p.2.length)).sum

/-- Sanity check replaying `TestCalculateReportStatistic` from
`usecases/services/report_test.go` with `baseTime = 0`:
expected `onCount = 1`, `offCount = 2`, `totalUptime = 2`. -/
theorem calculateMatchesUnitTest :
    CalculateReportStatistic
      [("container1",
         [⟨"container1", "ON", 3600, -12600⟩,
          ⟨"container1", "OFF", 1800, -10800⟩,
          ⟨"container1", "ON", 3600, -7200⟩]),
       ("container2", [⟨"container2", "OFF", 7200, -60⟩]),
       ("container3", [])]
      [("container1", [⟨"container1", "OFF", 7200, 0⟩]),
       ("container2", []),
       ("container3", [⟨"container3", "ON", 1800, 0⟩])]
      (-14400) 0 = (1, 2, 2) := by
  simp only [CalculateReportStatistic, processContainer, walkStep, mapGet,
    List.foldl, ContainerOn, String.reduceEq, if_true, if_false, reduceIte]
  norm_num [min_def, max_def]

/-- C1.  The claim is violated by the code: because `isOnline := 0` is
declared before the outer container loop (report.go line 108) instead of
inside it, an entity with zero window records and zero boundary record is
classified by the `isOnline` flag left over from the previously iterated
entity.  Second conjunct: with a preceding entity whose walk ended online,
the zero-record entity `"c2"` is counted in `onCount` — the result is
`(2, 0, 1/2)` with `offCount = 0`, not the default-off classification the
claim requires.  First conjunct: the claim's concrete scenario (all
entities with zero records and no boundary records) does hold, since the
stale flag is then still `0`. -/
theorem c1_default_classification_is_stale_flag :
    CalculateReportStatistic [("c1", []), ("c2", [])] [] 0 86400 = (0, 2, 0) ∧
    CalculateReportStatistic
      [("c1", [⟨"c1", "ON", 3600, 1800⟩]), ("c2", [])] [] 0 3600 =
      (2, 0, 1/2) := by
  constructor <;>
    · simp only [CalculateReportStatistic, processContainer, walkStep, mapGet,
        List.foldl, ContainerOn, String.reduceEq, if_true, if_false, reduceIte]
      norm_num [min_def, max_def]

/-- C4.  The claim is violated by the code: the entity `"b"` (zero window
records, no boundary record) is classified `off` when aggregated alone,
but `on` when preceded by the unrelated entity `"a"` whose walk ended
online — the `isOnline` flag is not re-initialised per entity (report.go
line 108 declares it outside the container loop), so the classification of
a boundary-less entity depends on other entities' records. -/
theorem c4_walk_state_not_fresh_per_entity :
    CalculateReportStatistic [("b", [])] [] 0 7200 = (0, 1, 0) ∧
    CalculateReportStatistic
      [("a", [⟨"a", "ON", 7200, 3600⟩]), ("b", [])] [] 0 7200 =
      (2, 0, 1) := by
  constructor <;>
    · simp only [CalculateReportStatistic, processContainer, walkStep, mapGet,
        List.foldl, ContainerOn, String.reduceEq, if_true, if_false, reduceIte]
      norm_num [min_def, max_def]

/-- C5.  The claim is violated by the code: the two status lists below are
permutations of each other — the same `map[string][]dto.EsStatus` contents,
observed in the two iteration orders Go's randomised map iteration can
produce — yet the aggregation returns `(2, 0, 1/4)` for one order and
`(1, 1, 1/4)` for the other, because the stale `isOnline` flag of entity
`"a"` leaks into the classification of the record-less entity `"b"`.
Re-running with identical inputs therefore need not yield identical
results. -/
theorem c5_result_depends_on_iteration_order :
    ([("a", [(⟨"a", "ON", 1800, 900⟩ : EsStatus)]), ("b", [])]).Perm
      [("b", []), ("a", [⟨"a", "ON", 1800, 900⟩])] ∧
    CalculateReportStatistic
        [("a", [⟨"a", "ON", 1800, 900⟩]), ("b", [])] [] 0 3600 = (2, 0, 1/4) ∧
    CalculateReportStatistic
        [("b", []), ("a", [⟨"a", "ON", 1800, 900⟩])] [] 0 3600 = (1, 1, 1/4) := by
  refine ⟨List.Perm.swap _ _ _, ?_, ?_⟩ <;>
    · simp only [CalculateReportStatistic, processContainer, walkStep, mapGet,
        List.foldl, ContainerOn, String.reduceEq, if_true, if_false, reduceIte]
      norm_num [min_def, max_def]

/-- C2.  For every entity with a boundary record, the first boundary
record's state alone decides the classification (report.go lines 123-131):
state `ON` increments `onCount` and adds
`min((end − lastOffBoundary).hours, elapsedSeconds/3600)` on top of the
walk's accumulated uptime, where `lastOffBoundary` is the walk's final
`previousTime`; state `OFF` increments `offCount` with no additional
uptime — whatever value (`0` or `1`) the walk left in `isOnline`, and
whatever the remaining boundary records are. -/
theorem c2_first_boundary_record_decides (overlapStatusList : StatusIndex)
    (startTime endTime : ℚ) (acc : Int × Int × ℚ × Int) (id : String)
    (recs : List EsStatus) (b : EsStatus) (rest : List EsStatus)
    (hb : mapGet overlapStatusList id = b :: rest) :
    (b.status = ContainerOn →
      processContainer overlapStatusList startTime endTime acc (id, recs) =
        (acc.1 + 1, acc.2.1,
          (recs.foldl (walkStep startTime) (acc.2.2.1, startTime, acc.2.2.2)).1 +
            min ((endTime -
              (recs.foldl (walkStep startTime) (acc.2.2.1, startTime, acc.2.2.2)).2.1) / 3600)
              ((b.uptime : ℚ) / 3600),
          (recs.foldl (walkStep startTime) (acc.2.2.1, startTime, acc.2.2.2)).2.2)) ∧
    (b.status = ContainerOff →
      processContainer overlapStatusList startTime endTime acc (id, recs) =
        (acc.1, acc.2.1 + 1,
          (recs.foldl (walkStep startTime) (acc.2.2.1, startTime, acc.2.2.2)).1,
          (recs.foldl (walkStep startTime) (acc.2.2.1, startTime, acc.2.2.2)).2.2)) := by
  constructor <;> intro hstat <;>
    simp only [processContainer, hb, hstat, ContainerOn, ContainerOff,
      String.reduceEq, reduceIte, if_true, if_false]

/-- C2 witness: a concrete boundary record `ON` with
`elapsedSeconds = 7200` after a window walk that ended `OFF`. -/
theorem c2_first_boundary_record_decides_witness :
    mapGet [("a", [(⟨"a", "ON", 7200, 4000⟩ : EsStatus)])] "a" =
      (⟨"a", "ON", 7200, 4000⟩ : EsStatus) :: [] ∧
    ((EsStatus.status ⟨"a", "ON", 7200, 4000⟩ = ContainerOn →
      processContainer [("a", [⟨"a", "ON", 7200, 4000⟩])] 0 3600 (0, 0, 0, 0)
          ("a", [⟨"a", "OFF", 0, 600⟩]) =
        (0 + 1, 0,
          ([(⟨"a", "OFF", 0, 600⟩ : EsStatus)].foldl (walkStep 0) (0, 0, 0)).1 +
            min ((3600 -
              ([(⟨"a", "OFF", 0, 600⟩ : EsStatus)].foldl (walkStep 0) (0, 0, 0)).2.1) / 3600)
              ((7200 : ℚ) / 3600),
          ([(⟨"a", "OFF", 0, 600⟩ : EsStatus)].foldl (walkStep 0) (0, 0, 0)).2.2)) ∧
    (EsStatus.status ⟨"a", "ON", 7200, 4000⟩ = ContainerOff →
      processContainer [("a", [⟨"a", "ON", 7200, 4000⟩])] 0 3600 (0, 0, 0, 0)
          ("a", [⟨"a", "OFF", 0, 600⟩]) =
        (0, 0 + 1,
          ([(⟨"a", "OFF", 0, 600⟩ : EsStatus)].foldl (walkStep 0) (0, 0, 0)).1,
          ([(⟨"a", "OFF", 0, 600⟩ : EsStatus)].foldl (walkStep 0) (0, 0, 0)).2.2))) := by
  exact ⟨by simp [mapGet],
    c2_first_boundary_record_decides [("a", [⟨"a", "ON", 7200, 4000⟩])] 0 3600
      (0, 0, 0, 0) "a" [⟨"a", "OFF", 0, 600⟩] ⟨"a", "ON", 7200, 4000⟩ []
      (by simp [mapGet])⟩

/-- C3.  An `ON` window record adds exactly
`min((observedAt − start).hours, elapsedSeconds/3600)` to the uptime
accumulator and sets the `isOnline` flag to `1` (report.go lines 114-116);
an entity whose only window record is `ON` with `elapsedSeconds = 3600`
and no boundary record contributes exactly `min((t − start).hours, 1)`
hours and is classified `on`, for any accumulator state and any window
end. -/
theorem c3_on_record_contribution (startTime endTime : ℚ) (st : ℚ × ℚ × Int)
    (r : EsStatus) (hOn : r.status = ContainerOn) (id : String) :
    walkStep startTime st r =
      (st.1 + min ((r.lastUpdated - startTime) / 3600) ((r.uptime : ℚ) / 3600),
        st.2.1, 1) ∧
    (r.uptime = 3600 →
      CalculateReportStatistic [(id, [r])] [] startTime endTime =
        (1, 0, min ((r.lastUpdated - startTime) / 3600) 1)) := by
  constructor
  · simp only [walkStep, hOn, ContainerOn, if_true, reduceIte]
  · intro hup
    simp only [CalculateReportStatistic, processContainer, walkStep, mapGet,
      List.foldl, hOn, hup, ContainerOn, if_true, reduceIte]
    norm_num

/-- C3 witness: an `ON` record at `t = 1800` with `elapsedSeconds = 3600`
in the window starting at `0`. -/
theorem c3_on_record_contribution_witness :
    EsStatus.status ⟨"a", "ON", 3600, 1800⟩ = ContainerOn ∧
    (walkStep 0 (0, 0, 0) ⟨"a", "ON", 3600, 1800⟩ =
      (0 + min ((1800 - 0) / 3600) (((3600 : Int) : ℚ) / 3600), 0, 1) ∧
    ((EsStatus.uptime ⟨"a", "ON", 3600, 1800⟩) = 3600 →
      CalculateReportStatistic [("a", [⟨"a", "ON", 3600, 1800⟩])] [] 0 86400 =
        (1, 0, min ((1800 - 0) / 3600) 1))) := by
  exact ⟨rfl, c3_on_record_contribution 0 86400 (0, 0, 0) _ rfl "a"⟩

/-- C7, as amended: an `OFF` window record sets `previousTime` to
`time.Unix(max(previousTime.Unix(), observedAt.Unix()), 0)` — the larger
of the two timestamps truncated to whole seconds, not the exact timestamp
— and clears `isOnline` (report.go lines 118-119); the first conjunct
shows the resulting value is what the boundary-`ON` tail computation uses
(report.go line 126). -/
theorem c7_off_record_floor_max (startTime endTime : ℚ)
    (acc : Int × Int × ℚ × Int) (st : ℚ × ℚ × Int) (id : String)
    (r b : EsStatus) (overlapStatusList : StatusIndex)
    (hOff : r.status = ContainerOff) (hb : mapGet overlapStatusList id = [b])
    (hbOn : b.status = ContainerOn) :
    walkStep startTime st r =
      (st.1, ((max ⌊st.2.1⌋ ⌊r.lastUpdated⌋ : ℤ) : ℚ), 0) ∧
    processContainer overlapStatusList startTime endTime acc (id, [r]) =
      (acc.1 + 1, acc.2.1,
        acc.2.2.1 +
          min ((endTime - ((max ⌊startTime⌋ ⌊r.lastUpdated⌋ : ℤ) : ℚ)) / 3600)
            ((b.uptime : ℚ) / 3600), 0) := by
  constructor
  · simp only [walkStep, hOff, ContainerOff, ContainerOn, String.reduceEq,
      reduceIte]
  · simp only [processContainer, List.foldl, walkStep, hb, hOff, hbOn,
      ContainerOff, ContainerOn, String.reduceEq, reduceIte]

/-- C7 witness: an `OFF` record observed at `t = 3/2` (one and a half
seconds past the epoch) with a boundary record `ON`. -/
theorem c7_off_record_floor_max_witness :
    EsStatus.status ⟨"a", "OFF", 0, 3/2⟩ = ContainerOff ∧
    mapGet [("a", [(⟨"a", "ON", 7200, 4000⟩ : EsStatus)])] "a" =
      [(⟨"a", "ON", 7200, 4000⟩ : EsStatus)] ∧
    EsStatus.status ⟨"a", "ON", 7200, 4000⟩ = ContainerOn ∧
    (walkStep 0 (0, 0, 0) ⟨"a", "OFF", 0, 3/2⟩ =
      (0, ((max ⌊(0 : ℚ)⌋ ⌊(3/2 : ℚ)⌋ : ℤ) : ℚ), 0) ∧
    processContainer [("a", [⟨"a", "ON", 7200, 4000⟩])] 0 3600 (0, 0, 0, 0)
        ("a", [⟨"a", "OFF", 0, 3/2⟩]) =
      (0 + 1, 0,
        0 + min ((3600 - ((max ⌊(0 : ℚ)⌋ ⌊(3/2 : ℚ)⌋ : ℤ) : ℚ)) / 3600)
          (((7200 : Int) : ℚ) / 3600), 0)) := by
  exact ⟨rfl, by simp [mapGet], rfl,
    c7_off_record_floor_max 0 3600 (0, 0, 0, 0) (0, 0, 0) "a"
      ⟨"a", "OFF", 0, 3/2⟩ ⟨"a", "ON", 7200, 4000⟩
      [("a", [⟨"a", "ON", 7200, 4000⟩])] rfl (by simp [mapGet]) rfl⟩

/-- C7 counterexample: the claim asserts `lastOffBoundary` becomes
`max(lastOffBoundary, observedAt)` with "no loss of precision", but an
`OFF` record observed at `t = 3/2` seconds sets it to `1`, the
whole-second truncation, not to `max(0, 3/2) = 3/2`. -/
theorem c7_exact_timestamp_refuted :
    (walkStep 0 (0, 0, 0) ⟨"a", "OFF", 0, 3/2⟩).2.1 = 1 ∧
    (walkStep 0 (0, 0, 0) ⟨"a", "OFF", 0, 3/2⟩).2.1 ≠ max (0 : ℚ) (3/2) := by
  constructor <;>
    · simp only [walkStep, ContainerOn, String.reduceEq, if_false, reduceIte]
      norm_num [max_def]

/-- Each walk step adds at most `(endTime − ⌊startTime⌋)/3600` to the
uptime accumulator and keeps `previousTime` at or after `⌊startTime⌋`, the
whole second that the `time.Unix` flooring of an `OFF` record can push
`previousTime` down to. -/
theorem walk_uptime_bound (startTime endTime : ℚ) (rs : List EsStatus)
    (hwin : ∀ r ∈ rs, startTime ≤ r.lastUpdated ∧ r.lastUpdated < endTime)
    (hse : startTime ≤ endTime) :
    ∀ (up prev : ℚ) (isOn : Int), ((⌊startTime⌋ : ℤ) : ℚ) ≤ prev →
      (rs.foldl (walkStep startTime) (up, prev, isOn)).1 ≤
          up + (endTime - ⌊startTime⌋) / 3600 * rs.length ∧
        ((⌊startTime⌋ : ℤ) : ℚ) ≤
          (rs.foldl (walkStep startTime) (up, prev, isOn)).2.1 := by
  have hfs : ((⌊startTime⌋ : ℤ) : ℚ) ≤ startTime := Int.floor_le startTime
  have hB : (0 : ℚ) ≤ (endTime - ⌊startTime⌋) / 3600 := by
    apply div_nonneg _ (by norm_num)
    linarith
  induction rs with
  | nil => intro up prev isOn hprev; simpa using hprev
  | cons r rest ih =>
    intro up prev isOn hprev
    have hr := hwin r (List.mem_cons_self r rest)
    have hwin' : ∀ x ∈ rest, startTime ≤ x.lastUpdated ∧ x.lastUpdated < endTime :=
      fun x hx => hwin x (List.mem_cons_of_mem r hx)
    rw [List.foldl_cons]
    by_cases hOn : r.status = ContainerOn
    · have hstep : walkStep startTime (up, prev, isOn) r =
          (up + min ((r.lastUpdated - startTime) / 3600) ((r.uptime : ℚ) / 3600),
            prev, 1) := by
        simp only [walkStep, hOn, ContainerOn, reduceIte, if_true]
      rw [hstep]
      have hmin : min ((r.lastUpdated - startTime) / 3600) ((r.uptime : ℚ) / 3600) ≤
          (endTime - ⌊startTime⌋) / 3600 := by
        refine le_trans (min_le_left _ _) ?_
        exact div_le_div_of_nonneg_right (by linarith [hr.2]) (by norm_num)
      obtain ⟨h1, h2⟩ := ih hwin' _ prev 1 hprev
      refine ⟨le_trans h1 ?_, h2⟩
      simp only [List.length_cons]
      push_cast
      nlinarith [hmin]
    · have hstep : walkStep startTime (up, prev, isOn) r =
          (up, ((max ⌊prev⌋ ⌊r.lastUpdated⌋ : ℤ) : ℚ), 0) := by
        simp only [walkStep, hOn, reduceIte, if_false]
      rw [hstep]
      have hfloor : ((⌊startTime⌋ : ℤ) : ℚ) ≤
          ((max ⌊prev⌋ ⌊r.lastUpdated⌋ : ℤ) : ℚ) := by
        have : ⌊startTime⌋ ≤ max ⌊prev⌋ ⌊r.lastUpdated⌋ :=
          le_trans (Int.le_floor.mpr hprev) (le_max_left _ _)
        exact_mod_cast this
      obtain ⟨h1, h2⟩ := ih hwin' up _ 0 hfloor
      refine ⟨le_trans h1 ?_, h2⟩
      simp only [List.length_cons]
      push_cast
      nlinarith [hB]

/-- One container contributes at most `(endTime − ⌊startTime⌋)/3600` per
window record plus one more such length from the boundary branch, whose
tail term is measured from the possibly floored `previousTime`. -/
theorem processContainer_uptime_bound (overlapStatusList : StatusIndex)
    (startTime endTime : ℚ) (acc : Int × Int × ℚ × Int)
    (c : String × List EsStatus)
    (hwin : ∀ r ∈ c.2, startTime ≤ r.lastUpdated ∧ r.lastUpdated < endTime)
    (hse : startTime ≤ endTime) :
    (processContainer overlapStatusList startTime endTime acc c).2.2.1 ≤
      acc.2.2.1 + (endTime - ⌊startTime⌋) / 3600 * (c.2.length + 1) := by
  have hfs : ((⌊startTime⌋ : ℤ) : ℚ) ≤ startTime := Int.floor_le startTime
  have hB : (0 : ℚ) ≤ (endTime - ⌊startTime⌋) / 3600 := by
    apply div_nonneg _ (by norm_num)
    linarith
  obtain ⟨h1, h2⟩ := walk_uptime_bound startTime endTime c.2 hwin hse
    acc.2.2.1 startTime acc.2.2.2 hfs
  unfold processContainer
  cases hov : mapGet overlapStatusList c.1 with
  | nil =>
    simp only
    nlinarith [h1, hB]
  | cons b rest =>
    simp only
    by_cases hbOn : b.status = ContainerOn
    · rw [if_pos hbOn]
      simp only
      have htail : min ((endTime -
            (c.2.foldl (walkStep startTime) (acc.2.2.1, startTime, acc.2.2.2)).2.1) / 3600)
            ((b.uptime : ℚ) / 3600) ≤ (endTime - ⌊startTime⌋) / 3600 := by
        refine le_trans (min_le_left _ _) ?_
        exact div_le_div_of_nonneg_right (by linarith [h2]) (by norm_num)
      nlinarith [h1, htail]
    · rw [if_neg hbOn]
      simp only
      nlinarith [h1, hB]

theorem recordCount_cons (c : String × List EsStatus) (rest : StatusIndex) :
    recordCount (c :: rest) = c.2.length + recordCount rest := by
  simp [recordCount]

theorem entityCount_cons (c : String × List EsStatus) (rest : StatusIndex) :
    entityCount (c :: rest) = entityCount rest + 1 := by
  simp [entityCount]

/-- Folding the per-container step over the whole input bounds the uptime
by one `(endTime − ⌊startTime⌋)` length per window record plus one per
entity. -/
theorem fold_uptime_bound (overlapStatusList : StatusIndex)
    (startTime endTime : ℚ) (hse : startTime ≤ endTime) :
    ∀ (l : StatusIndex) (acc : Int × Int × ℚ × Int),
      (∀ p ∈ l, ∀ r ∈ p.2, startTime ≤ r.lastUpdated ∧ r.lastUpdated < endTime) →
      (l.foldl (processContainer overlapStatusList startTime endTime) acc).2.2.1 ≤
        acc.2.2.1 +
          (endTime - ⌊startTime⌋) / 3600 * (recordCount l + entityCount l) := by
  intro l
  induction l with
  | nil => intro acc hwin; simp [recordCount, entityCount]
  | cons c rest ih =>
    intro acc hwin
    rw [List.foldl_cons]
    have hc := processContainer_uptime_bound overlapStatusList startTime endTime
      acc c (hwin c (List.mem_cons_self c rest)) hse
    have hr := ih (processContainer overlapStatusList startTime endTime acc c)
      (fun p hp => hwin p (List.mem_cons_of_mem c hp))
    refine le_trans hr ?_
    simp only [recordCount_cons, entityCount_cons]
    push_cast
    nlinarith [hc]

/-- C6, as amended: for inputs satisfying the claim's stated preconditions
(records ascending, window-record timestamps in `[start, end)`,
non-negative `elapsedSeconds` — the first and third are kept but not even
needed) with `start ≤ end`, `totalUptimeHours` never exceeds
`(end − ⌊start⌋)` hours times the number of window records plus the number
of entities, where `⌊start⌋` is `start` floored to a whole epoch second.
The window is measured from `⌊start⌋` rather than `start` because the
`time.Unix` truncation on an `OFF` record (report.go line 118) can push
`lastOffBoundary` below a fractional `start`, widening the boundary-`ON`
tail term accordingly; for whole-second starts the factor is exactly
`(end − start)` hours.  The claim's original bound — `(end − start)` hours
times the entity count alone — is refuted by
`c6_entity_count_bound_refuted`: every `ON` window record and every `ON`
boundary record can each contribute up to one full window length. -/
theorem c6_uptime_bounded_by_records_plus_entities
    (statusList overlapStatusList : StatusIndex) (startTime endTime : ℚ)
    (hsorted : InputSortedAsc statusList)
    (hwin : InputInWindow startTime endTime statusList)
    (hnonneg : InputUptimeNonneg statusList)
    (hse : startTime ≤ endTime) :
    (CalculateReportStatistic statusList overlapStatusList startTime endTime).2.2 ≤
      (endTime - ⌊startTime⌋) / 3600 *
        (recordCount statusList + entityCount statusList) := by
  have h := fold_uptime_bound overlapStatusList startTime endTime hse statusList
    (0, 0, 0, 0) hwin
  simpa [CalculateReportStatistic] using h

/-- C6 witness: one entity with one in-window `ON` record, over a
window with a fractional start `1/2`. -/
theorem c6_uptime_bounded_witness :
    InputSortedAsc [("a", [⟨"a", "ON", 3600, 1800⟩])] ∧
    InputInWindow (1/2) 3600 [("a", [⟨"a", "ON", 3600, 1800⟩])] ∧
    InputUptimeNonneg [("a", [⟨"a", "ON", 3600, 1800⟩])] ∧
    ((1/2 : ℚ) ≤ 3600) ∧
    (CalculateReportStatistic [("a", [⟨"a", "ON", 3600, 1800⟩])] []
        (1/2) 3600).2.2 ≤
      (3600 - ⌊(1/2 : ℚ)⌋) / 3600 *
        (recordCount [("a", [⟨"a", "ON", 3600, 1800⟩])] +
          entityCount [("a", [⟨"a", "ON", 3600, 1800⟩])]) := by
  have h1 : InputSortedAsc [("a", [⟨"a", "ON", 3600, 1800⟩])] := by
    intro p hp
    simp only [List.mem_singleton] at hp
    subst hp
    simp [RecordsSortedAsc]
  have h2 : InputInWindow (1/2) 3600 [("a", [⟨"a", "ON", 3600, 1800⟩])] := by
    intro p hp r hr
    simp only [List.mem_singleton] at hp
    subst hp
    simp only [List.mem_singleton] at hr
    subst hr
    norm_num
  have h3 : InputUptimeNonneg [("a", [⟨"a", "ON", 3600, 1800⟩])] := by
    intro p hp r hr
    simp only [List.mem_singleton] at hp
    subst hp
    simp only [List.mem_singleton] at hr
    subst hr
    norm_num
  have h4 : (1/2 : ℚ) ≤ 3600 := by norm_num
  exact ⟨h1, h2, h3, h4,
    c6_uptime_bounded_by_records_plus_entities
      [("a", [⟨"a", "ON", 3600, 1800⟩])] [] (1/2) 3600 h1 h2 h3 h4⟩

/-- C6 counterexample: the input below satisfies all stated preconditions
(records ascending, timestamps in `[0, 7200)`, non-negative
`elapsedSeconds`), yet the aggregated `totalUptimeHours` is
`53/18 ≈ 2.94`, strictly more than `(end − start)` hours times the entity
count, which is `2 · 1 = 2`: each `ON` record contributes up to a full
window length, so two `ON` records overshoot the claimed bound. -/
theorem c6_entity_count_bound_refuted :
    InputSortedAsc
      [("a", [⟨"a", "ON", 36000, 3600⟩, ⟨"a", "ON", 36000, 7000⟩])] ∧
    InputInWindow 0 7200
      [("a", [⟨"a", "ON", 36000, 3600⟩, ⟨"a", "ON", 36000, 7000⟩])] ∧
    InputUptimeNonneg
      [("a", [⟨"a", "ON", 36000, 3600⟩, ⟨"a", "ON", 36000, 7000⟩])] ∧
    (7200 - 0 : ℚ) / 3600 *
        (entityCount
          [("a", [⟨"a", "ON", 36000, 3600⟩, ⟨"a", "ON", 36000, 7000⟩])] : ℚ) <
      (CalculateReportStatistic
        [("a", [⟨"a", "ON", 36000, 3600⟩, ⟨"a", "ON", 36000, 7000⟩])] []
        0 7200).2.2 := by
  refine ⟨?_, ?_, ?_, ?_⟩
  · intro p hp
    simp only [List.mem_singleton] at hp
    subst hp
    simp only [RecordsSortedAsc, List.chain'_cons, List.chain'_singleton,
      and_true]
    norm_num
  · intro p hp r hr
    simp only [List.mem_singleton] at hp
    subst hp
    simp only [List.mem_cons, List.mem_singleton, List.not_mem_nil,
      or_false] at hr
    rcases hr with rfl | rfl <;> norm_num
  · intro p hp r hr
    simp only [List.mem_singleton] at hp
    subst hp
    simp only [List.mem_cons, List.mem_singleton, List.not_mem_nil,
      or_false] at hr
    rcases hr with rfl | rfl <;> norm_num
  · simp only [CalculateReportStatistic, processContainer, walkStep, mapGet,
      List.foldl, ContainerOn, String.reduceEq, if_true, if_false, reduceIte,
      entityCount, List.length_cons, List.length_nil]
    norm_num [min_def]

/-- A tick whose window query or boundary probe errored performs no sink
delivery: `report` returns before `SendEmail`. -/
theorem reportCycle_error_none (s e : ℚ) (inp : CycleInput)
    (herr : (∃ msg, inp.winRes = Except.error msg) ∨
      (∃ msg, inp.boundRes = Except.error msg)) :
    reportCycle s e inp = none := by
  rcases herr with ⟨m, hm⟩ | ⟨m, hm⟩
  · simp only [reportCycle, hm]
  · cases hw : inp.winRes with
    | error e' => simp only [reportCycle, hw]
    | ok w => simp only [reportCycle, hw, hm]

/-- C8.  A tick on which either store query errors delivers nothing to the
sink (the middle `none`), and the error is not fatal: the events after the
failing tick are processed exactly as they would be on their own, so the
loop is still alive and ticks again. -/
theorem c8_query_error_skips_cycle_nonfatal (evs1 evs2 : List LoopEv)
    (s e : ℚ) (inp : CycleInput) (h1 : hasDone evs1 = false)
    (herr : (∃ msg, inp.winRes = Except.error msg) ∨
      (∃ msg, inp.boundRes = Except.error msg)) :
    runLoop (evs1 ++ LoopEv.tick s e inp :: evs2) =
      runLoop evs1 ++ none :: runLoop evs2 := by
  induction evs1 with
  | nil =>
    simp [runLoop, reportCycle_error_none s e inp herr]
  | cons ev rest ih =>
    cases ev with
    | ctxDone => simp [hasDone] at h1
    | tick s' e' inp' =>
      have h1' : hasDone rest = false := by simpa [hasDone] using h1
      simp [runLoop, ih h1']

/-- C8 witness: a successful tick, then a tick whose window query errors,
then another successful tick that is still processed. -/
theorem c8_query_error_skips_cycle_nonfatal_witness :
    hasDone [LoopEv.tick 0 3600 ⟨Except.ok [], Except.ok []⟩] = false ∧
    ((∃ msg, (CycleInput.mk (Except.error "connection refused") (Except.ok [])).winRes =
        Except.error msg) ∨
      (∃ msg, (CycleInput.mk (Except.error "connection refused") (Except.ok [])).boundRes =
        Except.error msg)) ∧
    runLoop ([LoopEv.tick 0 3600 ⟨Except.ok [], Except.ok []⟩] ++
        LoopEv.tick 3600 7200 ⟨Except.error "connection refused", Except.ok []⟩ ::
          [LoopEv.tick 7200 10800 ⟨Except.ok [], Except.ok []⟩]) =
      runLoop [LoopEv.tick 0 3600 ⟨Except.ok [], Except.ok []⟩] ++
        none :: runLoop [LoopEv.tick 7200 10800 ⟨Except.ok [], Except.ok []⟩] :=
  ⟨rfl, Or.inl ⟨"connection refused", rfl⟩,
    c8_query_error_skips_cycle_nonfatal
      [LoopEv.tick 0 3600 ⟨Except.ok [], Except.ok []⟩]
      [LoopEv.tick 7200 10800 ⟨Except.ok [], Except.ok []⟩]
      3600 7200 ⟨Except.error "connection refused", Except.ok []⟩
      rfl (Or.inl ⟨"connection refused", rfl⟩)⟩

/-- After `Start(2)` the WaitGroup counter stays at `2` until the single
`run` goroutine exits and at `1` afterwards — `wg.Add(2)` is matched by
only one deferred `wg.Done()` — so `wg.Wait()` can never observe zero. -/
theorem schedTwo_invariant (s : SchedState) (h : SchedReach 2 s) :
    s.wgCount = (if s.workerExited then 1 else 2) ∧ s.stopReturned = false := by
  induction h with
  | init => simp [startState]
  | @step s' t' hr hstep ih =>
    cases hstep with
    | schedule h1 => exact ih
    | tickFire h1 h2 => exact ih
    | exitLoop h1 h2 h3 =>
      simp [h2] at ih
      simp [ih.1, ih.2]
    | stopCancel h1 => exact ih
    | stopReturn h1 h2 h3 =>
      exfalso
      have hcount := ih.1
      rw [h3] at hcount
      by_cases hx : s'.workerExited <;> simp [hx] at hcount


/-- C9.  The claim fails on the code: `Start(numWorkers)` executes
`wg.Add(numWorkers)` but launches a single `run` goroutine with a single
deferred `wg.Done()` (workers/report.go lines 47-55), so after `Start(2)`
no reachable interleaving ever lets `Stop()`'s `wg.Wait()` return — the
caller of `Stop()` blocks forever.  (With `numWorkers = 1`, the mode used
by the repository's own callers, which invoke `Start` with one worker,
stop does return only after the loop exits; the deadlock appears for any
`numWorkers ≥ 2`.) -/
theorem c9_start_two_stop_never_returns (s : SchedState)
    (h : SchedReach 2 s) : s.stopReturned = false :=
  (schedTwo_invariant s h).2

/-- C9 witness: the initial state after `Start(2)` is reachable and has
`stopReturned = false`. -/
theorem c9_start_two_stop_never_returns_witness :
    (startState 2).stopReturned = false :=
  c9_start_two_stop_never_returns (startState 2) SchedReach.init

/-- C10.  When the registry key is absent (`redis.Nil`), `RedisClient.Get`
returns the empty entity list with no error; `GetEsStatus` therefore does
not take its error-return branch but produces the empty result map, and
the worker's report cycle proceeds — delivering a zero-entity report
rather than skipping the cycle. -/
theorem c10_missing_registry_key_is_success (store : String → RedisReply)
    (unmarshal : String → Option (List ContainerWithStatus))
    (responses : List (List EsStatus)) (s e : ℚ)
    (h : store "containers" = RedisReply.nilReply) :
    redisGet store unmarshal "containers" = Except.ok [] ∧
    GetEsStatus store unmarshal (Except.ok responses) = Except.ok [] ∧
    reportCycle s e ⟨GetEsStatus store unmarshal (Except.ok responses),
        GetEsStatus store unmarshal (Except.ok responses)⟩ =
      some ⟨0, 0, 0, 0, s, e⟩ := by
  have hg : redisGet store unmarshal "containers" = Except.ok [] := by
    simp only [redisGet, h]
  have hG : GetEsStatus store unmarshal (Except.ok responses) = Except.ok [] := by
    simp [GetEsStatus, hg, buildResults]
  refine ⟨hg, hG, ?_⟩
  simp only [reportCycle, hG]
  norm_num [CalculateReportStatistic, List.foldl]

/-- C10 witness: a store with no keys at all. -/
theorem c10_missing_registry_key_is_success_witness :
    ((fun _ => RedisReply.nilReply) "containers" = RedisReply.nilReply) ∧
    (redisGet (fun _ => RedisReply.nilReply) (fun _ => none) "containers" =
        Except.ok [] ∧
      GetEsStatus (fun _ => RedisReply.nilReply) (fun _ => none)
          (Except.ok []) = Except.ok [] ∧
      reportCycle 0 3600
          ⟨GetEsStatus (fun _ => RedisReply.nilReply) (fun _ => none)
              (Except.ok []),
            GetEsStatus (fun _ => RedisReply.nilReply) (fun _ => none)
              (Except.ok [])⟩ =
        some ⟨0, 0, 0, 0, 0, 3600⟩) :=
  ⟨rfl, c10_missing_registry_key_is_success (fun _ => RedisReply.nilReply)
    (fun _ => none) [] 0 3600 rfl⟩

end VcsReport
